import Mathlib

/-!
Verification of the heuristic content-similarity and clustering engine of
`src/lib/enhancedExcelParser.ts` (class `EnhancedExcelParser`), shallowly
embedded in Lean 4.  JavaScript numbers are modelled by exact rationals
(every quantity the engine computes is a small rational), JavaScript
strings by Lean `String` (a list of characters), and the JS string
primitives used by the engine (`split` with a one-character separator,
`trim`, `toLowerCase`, `includes`) by the explicit character-list
functions below.
-/

namespace SEOPrompter

/-- Model of JS `String.prototype.split` with a single-character separator,
on character lists.  Like in JS, the result is never empty: splitting the
empty string yields `[[]]` (JS: `"".split(",") === [""]`). -/
def splitChar (c : Char) : List Char → List (List Char)
  | [] => [[]]
  | x :: xs =>
    match splitChar c xs with
    | [] => [[]]
    | w :: ws => if x = c then [] :: w :: ws else (x :: w) :: ws

/-- JS `s.split(c)` for a one-character separator `c`, on `String`. -/
def jsSplit (s : String) (c : Char) : List String :=
  (splitChar c s.data).map fun l => ⟨l⟩

/-- JS `s.toLowerCase()` (ASCII case folding, which covers the engine's
alphabet). -/
def jsToLower (s : String) : String :=
  ⟨s.data.map Char.toLower⟩

/-- JS `s.trim()`: strip whitespace from both ends. -/
def jsTrim (s : String) : String :=
  ⟨((s.data.dropWhile Char.isWhitespace).reverse.dropWhile Char.isWhitespace).reverse⟩

/-- JS `s.includes(sub)`: substring containment test. -/
def containsSubstr (s sub : String) : Bool :=
  (List.range (s.data.length + 1)).any fun i => sub.data.isPrefixOf (s.data.drop i)

/-- The argument shape `{ title, keywords, pillar }` passed to
`calculateSimilarity` in the source. -/
structure Post where
  title : String
  keywords : String
  pillar : String
deriving DecidableEq, Repr

/-- `EnhancedExcelRow` restricted to the fields the engine reads:
column `B` (title), column `C` (keywords), column `D` (pillar/category)
and `published_url`.  A missing/undefined field is modelled as `""`
(the parser fills absent cells with `''`, and JS truthiness of
`published_url` is `≠ ""`). -/
structure EnhancedExcelRow where
  B : String
  C : String
  D : String
  published_url : String
deriving DecidableEq, Repr

/-- The `{ title: row.B || '', keywords: row.C || '', pillar: row.D || '' }`
object built at each call site (`x || ''` is the identity on our
always-present string fields). -/
def rowPost (r : EnhancedExcelRow) : Post :=
  { title := r.B, keywords := r.C, pillar := r.D }

/-- The word list `textX.toLowerCase().split(' ')` from the source's
`calculateTextSimilarity`. -/
def wordList (text : String) : List String :=
  jsSplit (jsToLower text) ' '

/-- `sharedWords` from the source's `calculateTextSimilarity`: words of
`text1` that appear anywhere in `text2`'s word list (per occurrence). -/
def sharedWords (text1 text2 : String) : List String :=
  (wordList text1).filter fun word => (wordList text2).contains word

/-- Source `calculateTextSimilarity(text1, text2)`:
`sharedWords.length / Math.max(words1.length, words2.length)`. -/
def calculateTextSimilarity (text1 text2 : String) : ℚ :=
  ((sharedWords text1 text2).length : ℚ)
    / ((max (wordList text1).length (wordList text2).length : ℕ) : ℚ)

/-- The token list `postX.keywords.toLowerCase().split(',').map(k => k.trim())`
from the source's `calculateSimilarity`. -/
def parseKeywordList (s : String) : List String :=
  (jsSplit (jsToLower s) ',').map jsTrim

/-- `sharedKeywords` from the source's `calculateSimilarity`: tokens of
`post1` that appear anywhere in `post2`'s token list (per occurrence). -/
def sharedKeywords (post1 post2 : Post) : List String :=
  (parseKeywordList post1.keywords).filter fun k => (parseKeywordList post2.keywords).contains k

/-- The `sharedKeywords.length / Math.max(keywords1.length, keywords2.length)`
sub-term of the source's `calculateSimilarity`. -/
def keywordSimilarity (post1 post2 : Post) : ℚ :=
  ((sharedKeywords post1 post2).length : ℚ)
    / ((max (parseKeywordList post1.keywords).length (parseKeywordList post2.keywords).length : ℕ) : ℚ)

/-- Source `calculateSimilarity(post1, post2)`:
`min(keywordSimilarity * 0.5 + pillarMatch + titleSimilarity, 1)` with
`pillarMatch = post1.pillar === post2.pillar ? 0.3 : 0` and
`titleSimilarity = calculateTextSimilarity(title1, title2) * 0.4`. -/
def calculateSimilarity (post1 post2 : Post) : ℚ :=
  let pillarMatch : ℚ := if post1.pillar = post2.pillar then 3/10 else 0
  let titleSimilarity := calculateTextSimilarity post1.title post2.title * (2/5)
  min (keywordSimilarity post1 post2 * (1/2) + pillarMatch + titleSimilarity) 1

/-- Pair each element with its position, starting at `n`: the `(row, index)`
pairs a JS `forEach`/`map` callback receives (`indexedFrom 0 rows`). -/
def indexedFrom (n : ℕ) : List α → List (ℕ × α)
  | [] => []
  | a :: as => (n, a) :: indexedFrom (n + 1) as

/-- One element of `similarPosts` in `identifySemanticClusters`:
`{ index: otherIndex, similarity, row: otherRow }`. -/
structure RelatedPost where
  index : ℕ
  similarity : ℚ
  row : EnhancedExcelRow
deriving DecidableEq, Repr

/-- One element of a cluster's `internalLinkOpportunities`. -/
structure ClusterLink where
  fromIndex : ℕ
  toIndex : ℕ
  suggestedAnchor : String
  relevance : ℚ
deriving DecidableEq, Repr

/-- Source interface `SemanticCluster` (its `mainPost` field is the pair
`{ index, row }`). -/
structure SemanticCluster where
  id : String
  mainPost : ℕ × EnhancedExcelRow
  relatedPosts : List RelatedPost
  theme : String
  internalLinkOpportunities : List ClusterLink
deriving DecidableEq, Repr

/-- Source `extractTheme(title, keywords)`: first element of the fixed
theme vocabulary occurring as a substring of the lowercased
`title ++ " " ++ keywords`, defaulting to `"General"`. -/
def extractTheme (title keywords : String) : String :=
  let allWords := jsToLower (title ++ " " ++ keywords)
  let commonThemes := ["wine tasting", "wedding", "vineyard", "events", "sustainability", "harvest"]
  (commonThemes.find? fun theme => containsSubstr allWords theme).getD "General"

/-- Source `generateAnchorText(title)`: truncate titles longer than 50
characters to 47 characters plus `"..."`. -/
def generateAnchorText (title : String) : String :=
  if title.data.length > 50 then (⟨title.data.take 47⟩ : String) ++ "..." else title

/-- The `similarPosts` computation inside `identifySemanticClusters`:
`rows.map((otherRow, otherIndex) => ...).filter(post => post !== null)`
rendered as a `filterMap` over the indexed row list.  A candidate is
skipped when it is the current row or already claimed
(`index === otherIndex || processed.has(otherIndex)`), and kept when its
similarity to the current row exceeds `0.3`. -/
def findSimilarPosts (allRows : List (ℕ × EnhancedExcelRow)) (index : ℕ) (p : Post)
    (processed : List ℕ) : List RelatedPost :=
  allRows.filterMap fun jr =>
    if index = jr.1 ∨ processed.contains jr.1 then none
    else
      let similarity := calculateSimilarity p (rowPost jr.2)
      if (3 : ℚ)/10 < similarity then some ⟨jr.1, similarity, jr.2⟩ else none

/-- The cluster object pushed by `identifySemanticClusters` when
`similarPosts.length > 0`: anchored at the current `(index, row)` pair,
with id `cluster-${clusters.length}`. -/
def buildCluster (numClusters : ℕ) (ir : ℕ × EnhancedExcelRow)
    (similarPosts : List RelatedPost) : SemanticCluster :=
  { id := "cluster-" ++ toString numClusters
    mainPost := ir
    relatedPosts := similarPosts
    theme := extractTheme ir.2.B ir.2.C
    internalLinkOpportunities := similarPosts.map fun post =>
      { fromIndex := ir.1
        toIndex := post.index
        suggestedAnchor := generateAnchorText post.row.B
        relevance := post.similarity } }

/-- One iteration of the `rows.forEach((row, index) => ...)` loop of
`identifySemanticClusters`, acting on the accumulator
`(clusters, processed)`.  The processed set (a JS `Set` of indices,
modelled as a list) gains the anchor index and every collected index
exactly when a cluster is created. -/
def clusterStep (allRows : List (ℕ × EnhancedExcelRow))
    (acc : List SemanticCluster × List ℕ) (ir : ℕ × EnhancedExcelRow) :
    List SemanticCluster × List ℕ :=
  if acc.2.contains ir.1 then acc
  else
    let similarPosts := findSimilarPosts allRows ir.1 (rowPost ir.2) acc.2
    if 0 < similarPosts.length then
      (acc.1 ++ [buildCluster acc.1.length ir similarPosts],
       acc.2 ++ ir.1 :: similarPosts.map fun post => post.index)
    else acc

/-- Source `identifySemanticClusters(rows)`: greedy scan over the rows in
order, returning the accumulated cluster list. -/
def identifySemanticClusters (rows : List EnhancedExcelRow) : List SemanticCluster :=
  ((indexedFrom 0 rows).foldl (clusterStep (indexedFrom 0 rows)) ([], [])).1

/-- All row indices a cluster mentions: the anchor index followed by the
member indices. -/
def clusterIndices (c : SemanticCluster) : List ℕ :=
  c.mainPost.1 :: c.relatedPosts.map fun post => post.index

/-- Source interface `InternalLinkOpportunity`. -/
structure InternalLinkOpportunity where
  postIndex : ℕ
  title : String
  url : String
  suggestedLinks : List String
deriving DecidableEq, Repr

/-- Source `findRelatedPublishedPosts(currentRow, allRows)`: published rows
other than the current one (`row.published_url && row !== currentRow`;
`!==` is object identity, which for freshly parsed rows coincides with
list position, so the current row is identified by its index `i`), kept
when they score `> 0.2` against the current row, truncated to the first 3,
mapped to their URLs. -/
def findRelatedPublishedPosts (allRows : List (ℕ × EnhancedExcelRow)) (i : ℕ)
    (currentRow : EnhancedExcelRow) : List String :=
  ((((allRows.filter fun jr => jr.2.published_url ≠ "" ∧ jr.1 ≠ i).filter fun jr =>
      (2 : ℚ)/10 < calculateSimilarity (rowPost currentRow) (rowPost jr.2)).take 3).map
    fun jr => jr.2.published_url)

/-- Source `identifyInternalLinkOpportunities(rows)`:
`rows.filter(row => row.published_url).map((row, index) => ...)` — note
`index` is the position in the filtered list, not the original row index. -/
def identifyInternalLinkOpportunities (rows : List EnhancedExcelRow) :
    List InternalLinkOpportunity :=
  let indexed := indexedFrom 0 rows
  (indexedFrom 0 (indexed.filter fun jr => jr.2.published_url ≠ "")).map fun kjr =>
    { postIndex := kjr.1
      title := kjr.2.2.B
      url := kjr.2.2.published_url
      suggestedLinks := findRelatedPublishedPosts indexed kjr.2.1 kjr.2.2 }

/-- One update `distribution[pillar] = (distribution[pillar] || 0) + 1` on
the insertion-ordered association-list model of a JS object. -/
def bumpPillar (dist : List (String × ℕ)) (pillar : String) : List (String × ℕ) :=
  if dist.any fun kv => kv.1 = pillar then
    dist.map fun kv => if kv.1 = pillar then (kv.1, kv.2 + 1) else kv
  else dist ++ [(pillar, 1)]

/-- Source `analyzePillarDistribution(rows)`: count rows per pillar
(`row.D || 'Unknown'`), in first-insertion order as `Object.entries`
enumerates string keys. -/
def analyzePillarDistribution (rows : List EnhancedExcelRow) : List (String × ℕ) :=
  rows.foldl (fun dist row => bumpPillar dist (if row.D = "" then "Unknown" else row.D)) []

/-- Source interface `ContentGap` (counts are JS numbers; `gap` is an
integer because `Math.max(0, ...)` acts on a possibly negative value). -/
structure ContentGap where
  pillar : String
  currentCount : ℕ
  suggestedCount : ℤ
  gap : ℤ
deriving DecidableEq, Repr

/-- Source `identifyContentGaps(rows)`: per pillar,
`suggestedCount = Math.ceil(totalPosts * 0.2)` and
`gap = Math.max(0, suggestedCount - count)`, keeping entries with
`gap > 0`.  (`0.2` is modelled as the exact rational `1/5`; for the row
counts involved the double rounding of `0.2` never changes the ceiling.) -/
def identifyContentGaps (rows : List EnhancedExcelRow) : List ContentGap :=
  let pillarCounts := analyzePillarDistribution rows
  let totalPosts := rows.length
  (pillarCounts.map fun pc =>
    ({ pillar := pc.1
       currentCount := pc.2
       suggestedCount := ⌈(totalPosts : ℚ) * (1/5)⌉
       gap := max 0 (⌈(totalPosts : ℚ) * (1/5)⌉ - (pc.2 : ℤ)) } : ContentGap)).filter
    fun g => 0 < g.gap

/-- Source interface `ContentAnalysisResult`. -/
structure ContentAnalysisResult where
  totalPosts : ℕ
  publishedPosts : ℕ
  pillarDistribution : List (String × ℕ)
  semanticClusters : List SemanticCluster
  internalLinkOpportunities : List InternalLinkOpportunity
  contentGaps : List ContentGap
deriving DecidableEq, Repr

/-- Source `analyzeContentHolistically(rows)`. -/
def analyzeContentHolistically (rows : List EnhancedExcelRow) : ContentAnalysisResult :=
  { totalPosts := rows.length
    publishedPosts := (rows.filter fun row => row.published_url ≠ "").length
    pillarDistribution := analyzePillarDistribution rows
    semanticClusters := identifySemanticClusters rows
    internalLinkOpportunities := identifyInternalLinkOpportunities rows
    contentGaps := identifyContentGaps rows }

/-! ### Basic lemmas about the string primitives -/

theorem splitChar_ne_nil (c : Char) (l : List Char) : splitChar c l ≠ [] := by
  induction l with
  | nil => simp [splitChar]
  | cons x xs ih =>
    simp only [splitChar]
    match h : splitChar c xs with
    | [] => exact absurd h ih
    | w :: ws =>
      by_cases hx : x = c <;> simp [hx]

theorem jsSplit_length_pos (s : String) (c : Char) : 0 < (jsSplit s c).length := by
  rw [jsSplit, List.length_map]
  exact List.length_pos.mpr (splitChar_ne_nil c s.data)

theorem parseKeywordList_length_pos (s : String) : 0 < (parseKeywordList s).length := by
  rw [parseKeywordList, List.length_map]
  exact jsSplit_length_pos _ ','

/-! ### Claim C1 -/

theorem keywordSimilarity_nonneg (post1 post2 : Post) : 0 ≤ keywordSimilarity post1 post2 := by
  unfold keywordSimilarity
  exact div_nonneg (Nat.cast_nonneg _) (Nat.cast_nonneg _)

theorem calculateTextSimilarity_nonneg (text1 text2 : String) :
    0 ≤ calculateTextSimilarity text1 text2 := by
  unfold calculateTextSimilarity
  exact div_nonneg (Nat.cast_nonneg _) (Nat.cast_nonneg _)

/-- C1.  For every pair of rows `a` and `b` — including rows whose title and
keyword strings are empty — `calculateSimilarity(a, b)` is a total function
returning a rational `r` with `0 ≤ r ≤ 1`: both divisions have a positive
denominator (a JS `split` never produces an empty list, so each
`max(len₁, len₂)` is at least 1), and the final sum is capped at 1 by the
`Math.min(..., 1)`. -/
theorem C1_calculateSimilarity_bounds (a b : EnhancedExcelRow) :
    0 < max (parseKeywordList (rowPost a).keywords).length
        (parseKeywordList (rowPost b).keywords).length ∧
    0 < max (jsSplit (jsToLower (rowPost a).title) ' ').length
        (jsSplit (jsToLower (rowPost b).title) ' ').length ∧
    0 ≤ calculateSimilarity (rowPost a) (rowPost b) ∧
    calculateSimilarity (rowPost a) (rowPost b) ≤ 1 := by
  refine ⟨?_, ?_, ?_, ?_⟩
  · exact lt_max_iff.mpr (Or.inl (parseKeywordList_length_pos _))
  · exact lt_max_iff.mpr (Or.inl (jsSplit_length_pos _ _))
  · unfold calculateSimilarity
    refine le_min ?_ zero_le_one
    have h1 : (0 : ℚ) ≤ keywordSimilarity (rowPost a) (rowPost b) * (1/2) :=
      mul_nonneg (keywordSimilarity_nonneg _ _) (by norm_num)
    have h2 : (0 : ℚ) ≤ (if (rowPost a).pillar = (rowPost b).pillar then (3:ℚ)/10 else 0) := by
      split <;> norm_num
    have h3 : (0 : ℚ) ≤ calculateTextSimilarity (rowPost a).title (rowPost b).title * (2/5) :=
      mul_nonneg (calculateTextSimilarity_nonneg _ _) (by norm_num)
    exact add_nonneg (add_nonneg h1 h2) h3
  · unfold calculateSimilarity
    exact min_le_right _ _

/-! ### Claim C2 -/

theorem keywordSimilarity_empty_left (p q : Post) (h : p.keywords = "")
    (h2 : "" ∉ parseKeywordList q.keywords) : keywordSimilarity p q = 0 := by
  have hsh : sharedKeywords p q = [] := by
    rw [sharedKeywords, h, show parseKeywordList "" = [""] from rfl, List.filter_eq_nil_iff]
    intro k hk hc
    simp only [List.mem_singleton] at hk
    exact h2 (hk ▸ List.mem_of_elem_eq_true hc)
  rw [keywordSimilarity, hsh]
  simp

theorem keywordSimilarity_empty_right (p q : Post) (h : q.keywords = "")
    (h2 : "" ∉ parseKeywordList p.keywords) : keywordSimilarity p q = 0 := by
  have hsh : sharedKeywords p q = [] := by
    rw [sharedKeywords, h, show parseKeywordList "" = [""] from rfl, List.filter_eq_nil_iff]
    intro k hk hc
    have hk0 : k ∈ [""] := List.mem_of_elem_eq_true hc
    simp only [List.mem_singleton] at hk0
    exact h2 (hk0 ▸ hk)
  rw [keywordSimilarity, hsh]
  simp

theorem calculateTextSimilarity_empty_left (t1 t2 : String) (h : t1 = "")
    (h2 : "" ∉ wordList t2) : calculateTextSimilarity t1 t2 = 0 := by
  have hsh : sharedWords t1 t2 = [] := by
    rw [sharedWords, h, show wordList "" = [""] from rfl, List.filter_eq_nil_iff]
    intro w hw hc
    simp only [List.mem_singleton] at hw
    exact h2 (hw ▸ List.mem_of_elem_eq_true hc)
  rw [calculateTextSimilarity, hsh]
  simp

theorem calculateTextSimilarity_empty_right (t1 t2 : String) (h : t2 = "")
    (h2 : "" ∉ wordList t1) : calculateTextSimilarity t1 t2 = 0 := by
  have hsh : sharedWords t1 t2 = [] := by
    rw [sharedWords, h, show wordList "" = [""] from rfl, List.filter_eq_nil_iff]
    intro w hw hc
    have hw0 : w ∈ [""] := List.mem_of_elem_eq_true hc
    simp only [List.mem_singleton] at hw0
    exact h2 (hw0 ▸ hw)
  rw [calculateTextSimilarity, hsh]
  simp

unseal Rat.mul Rat.add Rat.inv in
/-- C2, counterexample.  The claim says the keyword-overlap sub-term
contributes `0` whenever either row's keyword token list is empty.  On two
rows whose raw keyword strings are both empty, the JS token list is
`[""]` for both sides, the empty token matches itself, and the sub-term is
`1` (weighted: `0.5`), not `0`: `calculateSimilarity` returns `1/2`
although under the claim it would return `0` (the titles share no word and
the pillars differ). -/
theorem C2_counterexample :
    (⟨"x", "", "p", ""⟩ : EnhancedExcelRow).C = "" ∧
    (⟨"y", "", "q", ""⟩ : EnhancedExcelRow).C = "" ∧
    keywordSimilarity (rowPost ⟨"x", "", "p", ""⟩) (rowPost ⟨"y", "", "q", ""⟩) = 1 ∧
    calculateSimilarity (rowPost ⟨"x", "", "p", ""⟩) (rowPost ⟨"y", "", "q", ""⟩) = 1/2 := by
  refine ⟨rfl, rfl, ?_, ?_⟩ <;> decide

unseal Rat.mul Rat.add Rat.inv in
/-- C2, amended.  No division by zero can occur because a JS `split` never
returns an empty list (`"".split(',') === ['']`), so every token list is
nonempty.  When one row's keyword string is empty the keyword sub-term is
`0` provided the other row's token list does not itself contain the empty
token; when both keyword strings are empty the token lists are `[""]` and
the sub-term is `1`, not `0`.  The title-word sub-term behaves the same
way. -/
theorem C2_amended_empty_field_subterms (a b : EnhancedExcelRow) :
    parseKeywordList (rowPost a).keywords ≠ [] ∧
    wordList (rowPost a).title ≠ [] ∧
    ((rowPost a).keywords = "" → "" ∉ parseKeywordList (rowPost b).keywords →
      keywordSimilarity (rowPost a) (rowPost b) = 0) ∧
    ((rowPost b).keywords = "" → "" ∉ parseKeywordList (rowPost a).keywords →
      keywordSimilarity (rowPost a) (rowPost b) = 0) ∧
    ((rowPost a).keywords = "" → (rowPost b).keywords = "" →
      keywordSimilarity (rowPost a) (rowPost b) = 1) ∧
    ((rowPost a).title = "" → "" ∉ wordList (rowPost b).title →
      calculateTextSimilarity (rowPost a).title (rowPost b).title = 0) ∧
    ((rowPost b).title = "" → "" ∉ wordList (rowPost a).title →
      calculateTextSimilarity (rowPost a).title (rowPost b).title = 0) ∧
    ((rowPost a).title = "" → (rowPost b).title = "" →
      calculateTextSimilarity (rowPost a).title (rowPost b).title = 1) := by
  refine ⟨?_, ?_, ?_, ?_, ?_, ?_, ?_, ?_⟩
  · exact List.length_pos.mp (parseKeywordList_length_pos _)
  · exact List.length_pos.mp (jsSplit_length_pos _ _)
  · exact fun h h2 => keywordSimilarity_empty_left _ _ h h2
  · exact fun h h2 => keywordSimilarity_empty_right _ _ h h2
  · intro h1 h2
    rw [keywordSimilarity, sharedKeywords, h1, h2]
    decide
  · exact fun h h2 => calculateTextSimilarity_empty_left _ _ h h2
  · exact fun h h2 => calculateTextSimilarity_empty_right _ _ h h2
  · intro h1 h2
    rw [calculateTextSimilarity, sharedWords, h1, h2]
    decide

/-- Witness for C2's amended claim at concrete inputs: one empty keyword
string against a nonempty one gives keyword sub-term `0`; two empty
keyword strings give `1`; an empty title against a nonempty one gives
title sub-term `0`. -/
theorem C2_amended_empty_field_subterms_witness :
    keywordSimilarity (rowPost ⟨"x", "", "p", ""⟩) (rowPost ⟨"y", "wine", "q", ""⟩) = 0 ∧
    keywordSimilarity (rowPost ⟨"x", "", "p", ""⟩) (rowPost ⟨"y", "", "q", ""⟩) = 1 ∧
    calculateTextSimilarity (rowPost ⟨"", "k", "p", ""⟩).title (rowPost ⟨"ab", "k", "q", ""⟩).title = 0 :=
  ⟨(C2_amended_empty_field_subterms ⟨"x", "", "p", ""⟩ ⟨"y", "wine", "q", ""⟩).2.2.1 rfl
      (by decide),
   (C2_amended_empty_field_subterms ⟨"x", "", "p", ""⟩ ⟨"y", "", "q", ""⟩).2.2.2.2.1 rfl rfl,
   (C2_amended_empty_field_subterms ⟨"", "k", "p", ""⟩ ⟨"ab", "k", "q", ""⟩).2.2.2.2.2.1 rfl
      (by decide)⟩

/-! ### Claim C6 -/

unseal Rat.mul Rat.add Rat.inv in
/-- C6.  `calculateSimilarity` is not symmetric: with duplicated keyword
tokens (`"x, x"` against `"x, y"`) the shared-token count is `2` in one
argument order and `1` in the other, giving scores `9/10` and `13/20`. -/
theorem C6_similarity_asymmetric :
    ∃ a b : EnhancedExcelRow,
      calculateSimilarity (rowPost a) (rowPost b) ≠ calculateSimilarity (rowPost b) (rowPost a) :=
  ⟨⟨"", "x, x", "p", ""⟩, ⟨"", "x, y", "q", ""⟩, by decide⟩

/-! ### Lemmas about `indexedFrom` -/

theorem indexedFrom_length (n : ℕ) (l : List α) : (indexedFrom n l).length = l.length := by
  induction l generalizing n with
  | nil => rfl
  | cons a as ih => simp [indexedFrom, ih]

theorem indexedFrom_map_snd (n : ℕ) (l : List α) : (indexedFrom n l).map Prod.snd = l := by
  induction l generalizing n with
  | nil => rfl
  | cons a as ih => simp [indexedFrom, ih]

theorem mem_indexedFrom {n : ℕ} {l : List α} {p : ℕ × α} (h : p ∈ indexedFrom n l) :
    ∃ k, ∃ hk : k < l.length, p.1 = n + k ∧ p.2 = l.get ⟨k, hk⟩ := by
  induction l generalizing n with
  | nil => simp [indexedFrom] at h
  | cons a as ih =>
    simp only [indexedFrom, List.mem_cons] at h
    rcases h with h | h
    · exact ⟨0, Nat.succ_pos _, by simp [h], by simp [h]⟩
    · obtain ⟨k, hk, h1, h2⟩ := ih h
      exact ⟨k + 1, Nat.succ_lt_succ hk, by omega, by simpa using h2⟩

theorem indexedFrom_pairwise_fst (n : ℕ) (l : List α) :
    (indexedFrom n l).Pairwise fun p q => p.1 < q.1 := by
  induction l generalizing n with
  | nil => exact List.Pairwise.nil
  | cons a as ih =>
    refine List.Pairwise.cons (fun q hq => ?_) (ih (n + 1))
    obtain ⟨k, hk, h1, _⟩ := mem_indexedFrom hq
    simp only
    omega

theorem indexedFrom_append (n : ℕ) (l1 l2 : List α) :
    indexedFrom n (l1 ++ l2) = indexedFrom n l1 ++ indexedFrom (n + l1.length) l2 := by
  induction l1 generalizing n with
  | nil => simp [indexedFrom]
  | cons a as ih =>
    simp only [List.cons_append, indexedFrom, List.length_cons, List.append_eq]
    rw [ih (n + 1)]
    have harith : n + 1 + as.length = n + (as.length + 1) := by omega
    rw [harith]

theorem indexedFrom_get (n : ℕ) (l : List α) (k : Fin (indexedFrom n l).length) :
    (indexedFrom n l).get k = (n + k.1, l.get (k.cast (indexedFrom_length n l))) := by
  induction l generalizing n with
  | nil => exact absurd k.2 (by simp [indexedFrom])
  | cons a as ih =>
    match k with
    | ⟨0, h⟩ => simp [indexedFrom]
    | ⟨j + 1, h⟩ =>
      have h2 : j < (indexedFrom (n + 1) as).length := by
        simpa [indexedFrom] using h
      have := ih (n + 1) ⟨j, h2⟩
      simp only [indexedFrom, List.get_cons_succ] at this ⊢
      rw [this]
      refine Prod.ext (by omega) ?_
      simp [Fin.cast]

/-! ### Lemmas about `findSimilarPosts` -/

theorem mem_findSimilarPosts {A : List (ℕ × EnhancedExcelRow)} {i : ℕ} {p : Post}
    {proc : List ℕ} {rp : RelatedPost} (h : rp ∈ findSimilarPosts A i p proc) :
    (rp.index, rp.row) ∈ A ∧ rp.index ≠ i ∧ rp.index ∉ proc ∧
      (3 : ℚ)/10 < rp.similarity ∧ rp.similarity = calculateSimilarity p (rowPost rp.row) := by
  simp only [findSimilarPosts, List.mem_filterMap] at h
  obtain ⟨jr, hjr, heq⟩ := h
  by_cases hskip : i = jr.1 ∨ proc.contains jr.1
  · rw [if_pos hskip] at heq
    cases heq
  · rw [if_neg hskip] at heq
    by_cases hsim : (3 : ℚ)/10 < calculateSimilarity p (rowPost jr.2)
    · rw [if_pos hsim] at heq
      obtain rfl := (Option.some.injEq _ _).mp heq |>.symm
      push_neg at hskip
      refine ⟨by simpa using hjr, fun hne => hskip.1 hne.symm, ?_, hsim, rfl⟩
      intro hmem
      exact absurd (List.elem_eq_true_of_mem hmem) (by simpa using hskip.2)
    · rw [if_neg hsim] at heq
      cases heq

theorem findSimilarPosts_map_index_sublist (A : List (ℕ × EnhancedExcelRow)) (i : ℕ) (p : Post)
    (proc : List ℕ) :
    ((findSimilarPosts A i p proc).map fun rp => rp.index).Sublist (A.map Prod.fst) := by
  induction A with
  | nil => simp [findSimilarPosts]
  | cons jr A ih =>
    simp only [findSimilarPosts, List.filterMap_cons] at ih ⊢
    by_cases hskip : i = jr.1 ∨ proc.contains jr.1
    · rw [if_pos hskip]
      exact ih.cons jr.1
    · rw [if_neg hskip]
      by_cases hsim : (3 : ℚ)/10 < calculateSimilarity p (rowPost jr.2)
      · rw [if_pos hsim]
        simpa using ih.cons₂ jr.1
      · rw [if_neg hsim]
        exact ih.cons jr.1

theorem findSimilarPosts_index_pairwise (rows : List EnhancedExcelRow) (i : ℕ) (p : Post)
    (proc : List ℕ) :
    ((findSimilarPosts (indexedFrom 0 rows) i p proc).map fun rp => rp.index).Pairwise (· < ·) := by
  have hA : ((indexedFrom 0 rows).map Prod.fst).Pairwise (· < ·) :=
    List.pairwise_map.mpr (indexedFrom_pairwise_fst 0 rows)
  exact List.Pairwise.sublist (findSimilarPosts_map_index_sublist _ _ _ _) hA

theorem findSimilarPosts_index_nodup (rows : List EnhancedExcelRow) (i : ℕ) (p : Post)
    (proc : List ℕ) :
    ((findSimilarPosts (indexedFrom 0 rows) i p proc).map fun rp => rp.index).Nodup :=
  (findSimilarPosts_index_pairwise rows i p proc).imp fun h => Nat.ne_of_lt h

theorem findSimilarPosts_eq_nil {A : List (ℕ × EnhancedExcelRow)} {i : ℕ} {p : Post}
    {proc : List ℕ}
    (h : ∀ jr ∈ A, ¬(i = jr.1 ∨ proc.contains jr.1 = true) →
      ¬((3 : ℚ)/10 < calculateSimilarity p (rowPost jr.2))) :
    findSimilarPosts A i p proc = [] := by
  simp only [findSimilarPosts]
  rw [List.filterMap_eq_nil_iff]
  intro jr hjr
  by_cases hskip : i = jr.1 ∨ proc.contains jr.1
  · rw [if_pos hskip]
  · rw [if_neg hskip, if_neg (h jr hjr hskip)]

/-! ### Lemmas about the greedy clustering fold -/

/-- All row indices mentioned by a cluster list. -/
def allClusterIndices (cs : List SemanticCluster) : List ℕ :=
  (cs.map clusterIndices).flatten

theorem clusterIndices_buildCluster (k : ℕ) (ir : ℕ × EnhancedExcelRow)
    (sims : List RelatedPost) :
    clusterIndices (buildCluster k ir sims) = ir.1 :: sims.map fun rp => rp.index := rfl

theorem allClusterIndices_append_singleton (cs : List SemanticCluster) (c : SemanticCluster) :
    allClusterIndices (cs ++ [c]) = allClusterIndices cs ++ clusterIndices c := by
  simp [allClusterIndices]

/-- Every cluster produced by folding `clusterStep` either was already in the
accumulator or is a `buildCluster` anchored at some scanned pair, built from
the `findSimilarPosts` of some intermediate processed set. -/
theorem mem_foldl_clusterStep {A l : List (ℕ × EnhancedExcelRow)}
    {acc : List SemanticCluster × List ℕ} {c : SemanticCluster}
    (h : c ∈ (l.foldl (clusterStep A) acc).1) :
    c ∈ acc.1 ∨ ∃ ir ∈ l, ∃ k proc,
      c = buildCluster k ir (findSimilarPosts A ir.1 (rowPost ir.2) proc) := by
  induction l generalizing acc with
  | nil => exact Or.inl h
  | cons ir l ih =>
    rw [List.foldl_cons] at h
    rcases ih h with hc | ⟨jr, hjr, k, proc, heq⟩
    · simp only [clusterStep] at hc
      split at hc
      · exact Or.inl hc
      · split at hc
        · rcases List.mem_append.mp hc with h1 | h1
          · exact Or.inl h1
          · simp only [List.mem_singleton] at h1
            exact Or.inr ⟨ir, List.mem_cons_self ir l, acc.1.length, acc.2, h1⟩
        · exact Or.inl hc
    · exact Or.inr ⟨jr, List.mem_cons_of_mem ir hjr, k, proc, heq⟩

/-- The invariant of the clustering scan: the indices mentioned by the
accumulated clusters are pairwise distinct and are exactly the processed
set. -/
def ClusterInv (acc : List SemanticCluster × List ℕ) : Prop :=
  (allClusterIndices acc.1).Nodup ∧ ∀ x : ℕ, x ∈ allClusterIndices acc.1 ↔ x ∈ acc.2

theorem clusterStep_preserves_inv {rows : List EnhancedExcelRow}
    {acc : List SemanticCluster × List ℕ} (hinv : ClusterInv acc)
    (ir : ℕ × EnhancedExcelRow) : ClusterInv (clusterStep (indexedFrom 0 rows) acc ir) := by
  obtain ⟨hnd, hiff⟩ := hinv
  simp only [clusterStep]
  split
  · exact ⟨hnd, hiff⟩
  · next hcont =>
    split
    · next hlen =>
      refine ⟨?_, ?_⟩
      · rw [allClusterIndices_append_singleton, List.nodup_append]
        refine ⟨hnd, ?_, ?_⟩
        · rw [clusterIndices_buildCluster, List.nodup_cons]
          refine ⟨?_, findSimilarPosts_index_nodup rows ir.1 (rowPost ir.2) acc.2⟩
          intro hmem
          obtain ⟨rp, hrp, hidx⟩ := List.mem_map.mp hmem
          exact (mem_findSimilarPosts hrp).2.1 hidx
        · intro x hx hx2
          have hxproc : x ∈ acc.2 := (hiff x).mp hx
          rw [clusterIndices_buildCluster, List.mem_cons] at hx2
          rcases hx2 with rfl | hx2
          · exact hcont (List.elem_eq_true_of_mem hxproc)
          · obtain ⟨rp, hrp, hidx⟩ := List.mem_map.mp hx2
            exact (mem_findSimilarPosts hrp).2.2.1 (hidx ▸ hxproc)
      · intro x
        rw [allClusterIndices_append_singleton, List.mem_append, List.mem_append,
          clusterIndices_buildCluster, hiff x]
    · exact ⟨hnd, hiff⟩

theorem foldl_clusterStep_inv {rows : List EnhancedExcelRow}
    {l : List (ℕ × EnhancedExcelRow)} {acc : List SemanticCluster × List ℕ}
    (hinv : ClusterInv acc) :
    ClusterInv (l.foldl (clusterStep (indexedFrom 0 rows)) acc) := by
  induction l generalizing acc with
  | nil => exact hinv
  | cons ir l ih => exact ih (clusterStep_preserves_inv hinv ir)

theorem clusterInv_init : ClusterInv (([], []) : List SemanticCluster × List ℕ) := by
  constructor
  · simp [allClusterIndices]
  · simp [allClusterIndices]

/-- If row `i` scores at most `0.3` against every other row in both argument
orders, then the scan never adds `i` to the processed set. -/
theorem foldl_clusterStep_avoid {rows : List EnhancedExcelRow} {i : ℕ} (hi : i < rows.length)
    (hsim : ∀ j, (hj : j < rows.length) → j ≠ i →
      calculateSimilarity (rowPost (rows.get ⟨i, hi⟩)) (rowPost (rows.get ⟨j, hj⟩)) ≤ 3/10 ∧
      calculateSimilarity (rowPost (rows.get ⟨j, hj⟩)) (rowPost (rows.get ⟨i, hi⟩)) ≤ 3/10)
    {l : List (ℕ × EnhancedExcelRow)} {acc : List SemanticCluster × List ℕ}
    (hl : ∀ jr ∈ l, jr ∈ indexedFrom 0 rows) (hacc : i ∉ acc.2) :
    i ∉ (l.foldl (clusterStep (indexedFrom 0 rows)) acc).2 := by
  induction l generalizing acc with
  | nil => exact hacc
  | cons ir l ih =>
    rw [List.foldl_cons]
    refine ih (fun jr hjr => hl jr (List.mem_cons_of_mem ir hjr)) ?_
    obtain ⟨kir, hkir, hir1, hir2⟩ := mem_indexedFrom (hl ir (List.mem_cons_self ir l))
    rw [Nat.zero_add] at hir1
    simp only [clusterStep]
    split
    · exact hacc
    · by_cases hanchor : ir.1 = i
      · have hkiri : kir = i := by omega
        have hempty :
            findSimilarPosts (indexedFrom 0 rows) ir.1 (rowPost ir.2) acc.2 = [] := by
          refine findSimilarPosts_eq_nil fun jr hjr hne hgt => ?_
          obtain ⟨kj, hkj, hj1, hj2⟩ := mem_indexedFrom hjr
          rw [Nat.zero_add] at hj1
          push_neg at hne
          have hjne : kj ≠ i := fun hkeq => hne.1 (by omega)
          have hle := (hsim kj hkj hjne).1
          rw [hir2, hj2] at hgt
          have hgeteq : rows.get ⟨kir, hkir⟩ = rows.get ⟨i, hi⟩ := by
            subst hkiri
            rfl
          rw [hgeteq] at hgt
          exact absurd hgt (not_lt.mpr hle)
        rw [hempty]
        simp only [List.length_nil, Nat.lt_irrefl, if_false]
        exact hacc
      · split
        · intro hmem
          rcases List.mem_append.mp hmem with hmem | hmem
          · exact hacc hmem
          · rcases List.mem_cons.mp hmem with heq | hmem
            · exact hanchor heq.symm
            · obtain ⟨rp, hrp, hidx⟩ := List.mem_map.mp hmem
              have hidx2 : rp.index = i := hidx
              obtain ⟨hmemA, hne2, hnproc, hgt, hsimeq⟩ := mem_findSimilarPosts hrp
              obtain ⟨kp, hkp, hp1, hp2⟩ := mem_indexedFrom hmemA
              have hpidx : rp.index = 0 + kp := hp1
              have hprow : rp.row = rows.get ⟨kp, hkp⟩ := hp2
              have hkpi : kp = i := by omega
              have hirne : kir ≠ i := by omega
              have hle := (hsim kir hkir hirne).2
              rw [hsimeq, hir2, hprow] at hgt
              have hgeteq : rows.get ⟨kp, hkp⟩ = rows.get ⟨i, hi⟩ := by
                subst hkpi
                rfl
              rw [hgeteq] at hgt
              exact absurd hgt (not_lt.mpr hle)
        · exact hacc

/-! ### Claim C3 -/

/-- C3.  For every input row list: (1) no row index appears twice across the
clusters of `identifySemanticClusters` (counting anchor and member
positions); (2) a row whose similarity with every other row is at most
`0.3` in both argument orders appears in no cluster at all. -/
theorem C3_clusters_disjoint_and_isolated_rows_unclustered (rows : List EnhancedExcelRow) :
    (allClusterIndices (identifySemanticClusters rows)).Nodup ∧
    ∀ i, (hi : i < rows.length) →
      (∀ j, (hj : j < rows.length) → j ≠ i →
        calculateSimilarity (rowPost (rows.get ⟨i, hi⟩)) (rowPost (rows.get ⟨j, hj⟩)) ≤ 3/10 ∧
        calculateSimilarity (rowPost (rows.get ⟨j, hj⟩)) (rowPost (rows.get ⟨i, hi⟩)) ≤ 3/10) →
      i ∉ allClusterIndices (identifySemanticClusters rows) := by
  have hinv : ClusterInv
      ((indexedFrom 0 rows).foldl (clusterStep (indexedFrom 0 rows)) ([], [])) :=
    foldl_clusterStep_inv clusterInv_init
  constructor
  · exact hinv.1
  · intro i hi hsim hmem
    exact foldl_clusterStep_avoid hi hsim (fun jr h => h) (List.not_mem_nil i)
      ((hinv.2 i).mp hmem)

unseal Rat.mul Rat.add Rat.inv in
/-- Witness for C3 on a concrete list: rows 0 and 1 cluster together, row 2
scores `0` against both in both orders and so is in no cluster. -/
theorem C3_clusters_disjoint_and_isolated_rows_unclustered_witness :
    (allClusterIndices (identifySemanticClusters
      [⟨"s", "a", "p", ""⟩, ⟨"t", "a", "p", ""⟩, ⟨"u", "zzz", "q", ""⟩])).Nodup ∧
    2 ∉ allClusterIndices (identifySemanticClusters
      [⟨"s", "a", "p", ""⟩, ⟨"t", "a", "p", ""⟩, ⟨"u", "zzz", "q", ""⟩]) :=
  ⟨(C3_clusters_disjoint_and_isolated_rows_unclustered _).1,
   (C3_clusters_disjoint_and_isolated_rows_unclustered
      [⟨"s", "a", "p", ""⟩, ⟨"t", "a", "p", ""⟩, ⟨"u", "zzz", "q", ""⟩]).2 2
      (by decide) (by decide)⟩

/-! ### Claim C5 -/

unseal Rat.mul Rat.add Rat.inv in
/-- C5, counterexample.  `identifySemanticClusters` does not sort
`relatedPosts` by descending score: on three rows where the anchor scores
`11/20` against row 1 and `4/5` against row 2, the single cluster lists its
members in scan order `[11/20, 4/5]`, which is not descending. -/
theorem C5_counterexample :
    (identifySemanticClusters
        [⟨"t0", "a, b", "p", ""⟩, ⟨"t1", "a, x", "p", ""⟩, ⟨"t2", "a, b", "p", ""⟩]).map
      (fun c => c.relatedPosts.map fun rp => rp.similarity) = [[11/20, 4/5]] ∧
    ¬ ∀ c ∈ identifySemanticClusters
        [⟨"t0", "a, b", "p", ""⟩, ⟨"t1", "a, x", "p", ""⟩, ⟨"t2", "a, b", "p", ""⟩],
      (c.relatedPosts.map fun rp => rp.similarity).Pairwise (· ≥ ·) := by
  constructor <;> decide

/-- C5, amended.  `relatedPosts` is ordered by ascending member row index
(the original scan order), not by descending similarity score. -/
theorem C5_amended_relatedPosts_in_scan_order (rows : List EnhancedExcelRow)
    (c : SemanticCluster) (hc : c ∈ identifySemanticClusters rows) :
    (c.relatedPosts.map fun rp => rp.index).Pairwise (· < ·) := by
  rcases mem_foldl_clusterStep (A := indexedFrom 0 rows) hc with h0 | ⟨ir, hir, k, proc, heq⟩
  · exact absurd h0 (List.not_mem_nil c)
  · subst heq
    exact findSimilarPosts_index_pairwise rows ir.1 (rowPost ir.2) proc

unseal Rat.mul Rat.add Rat.inv in
/-- Witness for C5's amended claim: the cluster of the counterexample list
has member indices `[1, 2]`, which are strictly increasing. -/
theorem C5_amended_relatedPosts_in_scan_order_witness :
    (((identifySemanticClusters
        [⟨"t0", "a, b", "p", ""⟩, ⟨"t1", "a, x", "p", ""⟩, ⟨"t2", "a, b", "p", ""⟩]).get
      ⟨0, by decide⟩).relatedPosts.map fun rp => rp.index).Pairwise (· < ·) :=
  C5_amended_relatedPosts_in_scan_order _ _ (List.get_mem _ _ _)

/-! ### Claim C4 -/

/-- The `(clusters, processed)` state of the greedy scan just before the
turn of row `i` (the fold over the first `i` indexed rows). -/
def clusterScanState (rows : List EnhancedExcelRow) (i : ℕ) :
    List SemanticCluster × List ℕ :=
  (indexedFrom 0 (rows.take i)).foldl (clusterStep (indexedFrom 0 rows)) ([], [])

unseal Rat.mul Rat.add Rat.inv in
/-- C4, counterexample.  On the two rows `{title "s", keywords "a, b",
pillar "p"}` and `{title "t", keywords "a, a", pillar "q"}`, the similar
set of row 0 at its own turn is empty (its score against row 1 is `1/4`),
yet row 0 still ends up inside a cluster: row 1's score against row 0 is
`1/2` (the heuristic is asymmetric), so row 1 later claims row 0 as a
member.  This refutes the claim that such a row appears in no cluster of
the final result. -/
theorem C4_counterexample :
    findSimilarPosts (indexedFrom 0 [⟨"s", "a, b", "p", ""⟩, ⟨"t", "a, a", "q", ""⟩]) 0
      (rowPost ⟨"s", "a, b", "p", ""⟩)
      (clusterScanState [⟨"s", "a, b", "p", ""⟩, ⟨"t", "a, a", "q", ""⟩] 0).2 = [] ∧
    0 ∈ allClusterIndices
      (identifySemanticClusters [⟨"s", "a, b", "p", ""⟩, ⟨"t", "a, a", "q", ""⟩]) := by
  constructor <;> decide

/-- C4, amended.  If row `i`'s similar set is empty at its own turn, then
`i` anchors no cluster of the final result (it is never revisited as an
anchor) — but it may still be claimed later as a `relatedPosts` member of a
cluster anchored at a row that scores above `0.3` against it in the other
argument order. -/
theorem C4_amended_empty_turn_never_anchor (rows : List EnhancedExcelRow) (i : ℕ)
    (hi : i < rows.length)
    (hempty : findSimilarPosts (indexedFrom 0 rows) i (rowPost (rows.get ⟨i, hi⟩))
      (clusterScanState rows i).2 = []) :
    ∀ c ∈ identifySemanticClusters rows, c.mainPost.1 ≠ i := by
  intro c hc
  have htake : (rows.take i).length = i := by
    rw [List.length_take]
    omega
  have hdrop : rows.drop i = rows.get ⟨i, hi⟩ :: rows.drop (i + 1) := by
    rw [List.drop_eq_getElem_cons hi, List.get_eq_getElem]
  have hsplit : indexedFrom 0 rows =
      indexedFrom 0 (rows.take i) ++
        ((i, rows.get ⟨i, hi⟩) :: indexedFrom (i + 1) (rows.drop (i + 1))) := by
    conv_lhs => rw [← List.take_append_drop i rows]
    rw [indexedFrom_append, hdrop, htake, Nat.zero_add, indexedFrom]
  have hstep : clusterStep (indexedFrom 0 rows) (clusterScanState rows i)
      (i, rows.get ⟨i, hi⟩) = clusterScanState rows i := by
    simp only [clusterStep]
    split
    · rfl
    · rw [hempty]
      simp
  have hfoldgen : ∀ (f : List SemanticCluster × List ℕ → ℕ × EnhancedExcelRow →
        List SemanticCluster × List ℕ) init,
      List.foldl f init (indexedFrom 0 rows) =
        List.foldl f (f (List.foldl f init (indexedFrom 0 (rows.take i)))
          (i, rows.get ⟨i, hi⟩)) (indexedFrom (i + 1) (rows.drop (i + 1))) := by
    intro f init
    rw [hsplit, List.foldl_append, List.foldl_cons]
  have hc2 : c ∈ ((indexedFrom (i + 1) (rows.drop (i + 1))).foldl
      (clusterStep (indexedFrom 0 rows)) (clusterScanState rows i)).1 := by
    have hID : identifySemanticClusters rows = ((indexedFrom (i + 1) (rows.drop (i + 1))).foldl
        (clusterStep (indexedFrom 0 rows)) (clusterScanState rows i)).1 := by
      unfold identifySemanticClusters
      rw [hfoldgen (clusterStep (indexedFrom 0 rows)) ([], [])]
      rw [show List.foldl (clusterStep (indexedFrom 0 rows)) ([], [])
          (indexedFrom 0 (rows.take i)) = clusterScanState rows i from rfl]
      rw [hstep]
    exact hID ▸ hc
  rcases mem_foldl_clusterStep hc2 with h0 | ⟨ir, hir, k, proc, heq⟩
  · rcases mem_foldl_clusterStep h0 with h00 | ⟨ir, hir, k, proc, heq⟩
    · exact absurd h00 (List.not_mem_nil c)
    · obtain ⟨kk, hkk, h1, _⟩ := mem_indexedFrom hir
      rw [htake] at hkk
      subst heq
      show ir.1 ≠ i
      omega
  · obtain ⟨kk, hkk, h1, _⟩ := mem_indexedFrom hir
    subst heq
    show ir.1 ≠ i
    omega

unseal Rat.mul Rat.add Rat.inv in
/-- Witness for C4's amended claim: on the counterexample rows, row 0's
similar set is empty at its turn, and indeed no cluster of the result is
anchored at row 0 (the only cluster is anchored at row 1). -/
theorem C4_amended_empty_turn_never_anchor_witness :
    0 ∉ (identifySemanticClusters [⟨"s", "a, b", "p", ""⟩, ⟨"t", "a, a", "q", ""⟩]).map
      (fun c => c.mainPost.1) := by
  intro hmem
  obtain ⟨c, hc, h0⟩ := List.mem_map.mp hmem
  exact C4_amended_empty_turn_never_anchor
    [⟨"s", "a, b", "p", ""⟩, ⟨"t", "a, a", "q", ""⟩] 0 (by decide) (by decide) c hc h0

/-! ### Claim C7 -/

/-- The rows that belong to some cluster (anchor and members), in cluster
order. -/
def clusteredRows (rows : List EnhancedExcelRow) : List EnhancedExcelRow :=
  ((identifySemanticClusters rows).map fun c =>
    c.mainPost.2 :: c.relatedPosts.map fun rp => rp.row).flatten

unseal Rat.mul Rat.add Rat.inv in
/-- C7.  Clustering is order-dependent: the lists `[Y, X, Z]` and
`[X, Y, Z]` are permutations of each other, yet row `Z` is clustered when
`Y` (similar to both `X` and `Z`) is scanned first, and unclustered when
`X` is scanned first (the `X`-anchored cluster claims `Y`, and `Z` scores
only `0.3`, not above threshold, against `X`).  So the grouping produced on
the permuted list is not the image of the original grouping under the
permutation. -/
theorem C7_clustering_order_dependent :
    ∃ l1 l2 : List EnhancedExcelRow, l1.Perm l2 ∧
      ∃ r, r ∈ clusteredRows l1 ∧ r ∉ clusteredRows l2 := by
  refine ⟨[⟨"ty", "a, b", "p", ""⟩, ⟨"tx", "a", "p", ""⟩, ⟨"tz", "b", "p", ""⟩],
    [⟨"tx", "a", "p", ""⟩, ⟨"ty", "a, b", "p", ""⟩, ⟨"tz", "b", "p", ""⟩], ?_,
    ⟨"tz", "b", "p", ""⟩, ?_, ?_⟩ <;> decide

/-! ### Claim C9 -/

unseal Rat.mul Rat.add Rat.inv in
/-- C9.  On the three-row example of the specification, the full analysis
produces exactly one cluster, anchored at Row1 with Row2 as its only
member and Row3 excluded (the Row1–Row3 score is exactly `3/10`, not
strictly above the threshold), the pillar distribution
`{"Wine Education": 2, "Events & Experiences": 1}`, and no content gaps
(`suggestedCount = ceil(3 * 0.2) = 1` is met by every pillar). -/
theorem C9_spec_example_end_to_end :
    (analyzeContentHolistically
        [⟨"Hudson Valley Wine Tasting Guide",
          "wine tasting, hudson valley, vineyard tours", "Wine Education",
          "https://example.com/p1"⟩,
         ⟨"Wine Tasting Techniques for Beginners",
          "wine tasting, beginner guide, techniques", "Wine Education", ""⟩,
         ⟨"Sustainable Wedding Venues in Hudson Valley",
          "sustainable weddings, eco venue, hudson valley", "Events & Experiences",
          ""⟩]).semanticClusters.map
      (fun c => (c.mainPost.1, c.relatedPosts.map fun rp => rp.index)) = [(0, [1])] ∧
    (analyzeContentHolistically
        [⟨"Hudson Valley Wine Tasting Guide",
          "wine tasting, hudson valley, vineyard tours", "Wine Education",
          "https://example.com/p1"⟩,
         ⟨"Wine Tasting Techniques for Beginners",
          "wine tasting, beginner guide, techniques", "Wine Education", ""⟩,
         ⟨"Sustainable Wedding Venues in Hudson Valley",
          "sustainable weddings, eco venue, hudson valley", "Events & Experiences",
          ""⟩]).pillarDistribution = [("Wine Education", 2), ("Events & Experiences", 1)] ∧
    (analyzeContentHolistically
        [⟨"Hudson Valley Wine Tasting Guide",
          "wine tasting, hudson valley, vineyard tours", "Wine Education",
          "https://example.com/p1"⟩,
         ⟨"Wine Tasting Techniques for Beginners",
          "wine tasting, beginner guide, techniques", "Wine Education", ""⟩,
         ⟨"Sustainable Wedding Venues in Hudson Valley",
          "sustainable weddings, eco venue, hudson valley", "Events & Experiences",
          ""⟩]).contentGaps = [] ∧
    calculateSimilarity
      (rowPost ⟨"Hudson Valley Wine Tasting Guide",
        "wine tasting, hudson valley, vineyard tours", "Wine Education",
        "https://example.com/p1"⟩)
      (rowPost ⟨"Sustainable Wedding Venues in Hudson Valley",
        "sustainable weddings, eco venue, hudson valley", "Events & Experiences", ""⟩)
      = 3/10 := by
  refine ⟨?_, ?_, ?_, ?_⟩ <;> decide

/-! ### Claims C10 and C8: internal link opportunities -/

theorem indexedFrom_getElem (n : ℕ) (l : List α) (k : ℕ) (h : k < (indexedFrom n l).length) :
    (indexedFrom n l)[k] =
      (n + k, l.get ⟨k, by simpa [indexedFrom_length] using h⟩) := by
  have hget := indexedFrom_get n l ⟨k, h⟩
  rw [List.get_eq_getElem] at hget
  rw [hget]
  rfl

/-- The `k`-th entry of `identifyInternalLinkOpportunities` comes from some
indexed published row `jr`, carries its URL, and its `suggestedLinks` are
`findRelatedPublishedPosts` for that row; its `postIndex` is `k`, the
position in the filtered list. -/
theorem identifyInternalLinkOpportunities_get_spec (rows : List EnhancedExcelRow) (k : ℕ)
    (hk : k < (identifyInternalLinkOpportunities rows).length) :
    ∃ jr : ℕ × EnhancedExcelRow, jr ∈ indexedFrom 0 rows ∧ jr.2.published_url ≠ "" ∧
      (identifyInternalLinkOpportunities rows).get ⟨k, hk⟩ =
        { postIndex := k, title := jr.2.B, url := jr.2.published_url,
          suggestedLinks := findRelatedPublishedPosts (indexedFrom 0 rows) jr.1 jr.2 } := by
  have hlenA : k < ((indexedFrom 0 rows).filter fun jr => jr.2.published_url ≠ "").length := by
    have h0 := hk
    simp only [identifyInternalLinkOpportunities, List.length_map, indexedFrom_length] at h0
    exact h0
  refine ⟨((indexedFrom 0 rows).filter fun jr => jr.2.published_url ≠ "").get ⟨k, hlenA⟩,
    ?_, ?_, ?_⟩
  · exact List.mem_of_mem_filter (List.get_mem _ _ _)
  · have hp := List.of_mem_filter (List.get_mem
      ((indexedFrom 0 rows).filter fun jr => jr.2.published_url ≠ "") k hlenA)
    exact of_decide_eq_true hp
  · have hmap : identifyInternalLinkOpportunities rows =
        List.map (fun (kjr : ℕ × (ℕ × EnhancedExcelRow)) =>
          ({ postIndex := kjr.1, title := kjr.2.2.B,
             url := kjr.2.2.published_url,
             suggestedLinks := findRelatedPublishedPosts (indexedFrom 0 rows) kjr.2.1 kjr.2.2 }
            : InternalLinkOpportunity))
          (indexedFrom 0 ((indexedFrom 0 rows).filter fun jr => jr.2.published_url ≠ "")) := rfl
    rw [List.get_eq_getElem, List.getElem_of_eq hmap hk]
    rw [List.getElem_map, indexedFrom_getElem]
    simp

/-- C10.  The `postIndex` of the `k`-th entry of
`identifyInternalLinkOpportunities` is `k`, its position in the filtered
subsequence of published rows, not the source row's index in the full row
list. -/
theorem C10_postIndex_is_filtered_position (rows : List EnhancedExcelRow) (k : ℕ)
    (hk : k < (identifyInternalLinkOpportunities rows).length) :
    ((identifyInternalLinkOpportunities rows).get ⟨k, hk⟩).postIndex = k := by
  obtain ⟨jr, _, _, heq⟩ := identifyInternalLinkOpportunities_get_spec rows k hk
  rw [heq]

/-- Witness for C10: in a list whose only published row sits at original
index 1, the single entry has `postIndex` 0. -/
theorem C10_postIndex_is_filtered_position_witness :
    ((identifyInternalLinkOpportunities
        [⟨"a", "", "p", ""⟩, ⟨"b", "", "p", "u"⟩]).get ⟨0, by decide⟩).postIndex = 0 :=
  C10_postIndex_is_filtered_position [⟨"a", "", "p", ""⟩, ⟨"b", "", "p", "u"⟩] 0 (by decide)

theorem findRelatedPublishedPosts_length_le (A : List (ℕ × EnhancedExcelRow)) (i : ℕ)
    (r : EnhancedExcelRow) : (findRelatedPublishedPosts A i r).length ≤ 3 := by
  simp only [findRelatedPublishedPosts, List.length_map]
  exact List.length_take_le 3 _

theorem findRelatedPublishedPosts_sublist (rows : List EnhancedExcelRow) (i : ℕ)
    (r : EnhancedExcelRow) :
    (findRelatedPublishedPosts (indexedFrom 0 rows) i r).Sublist
      (rows.map fun row => row.published_url) := by
  have h1 : (((((indexedFrom 0 rows).filter fun jr =>
        jr.2.published_url ≠ "" ∧ jr.1 ≠ i).filter fun jr =>
      (2 : ℚ)/10 < calculateSimilarity (rowPost r) (rowPost jr.2)).take 3)).Sublist
      (indexedFrom 0 rows) :=
    ((List.take_sublist _ _).trans (List.filter_sublist _)).trans (List.filter_sublist _)
  have h2 := h1.map fun jr => jr.2.published_url
  have h3 : ((indexedFrom 0 rows).map fun jr => jr.2.published_url) =
      rows.map fun row => row.published_url := by
    conv_rhs => rw [← indexedFrom_map_snd 0 rows]
    rw [List.map_map]
    rfl
  rw [h3] at h2
  exact h2

theorem findRelatedPublishedPosts_mem {A : List (ℕ × EnhancedExcelRow)} {i : ℕ}
    {r : EnhancedExcelRow} {u : String} (h : u ∈ findRelatedPublishedPosts A i r) :
    ∃ jr ∈ A, jr.1 ≠ i ∧ jr.2.published_url = u ∧ u ≠ "" ∧
      (2 : ℚ)/10 < calculateSimilarity (rowPost r) (rowPost jr.2) := by
  simp only [findRelatedPublishedPosts, List.mem_map] at h
  obtain ⟨jr, hjr, rfl⟩ := h
  have hjr2 := List.mem_of_mem_take hjr
  simp only [List.mem_filter, decide_eq_true_eq] at hjr2
  obtain ⟨⟨hmem, hpub, hne⟩, hsim⟩ := hjr2
  exact ⟨jr, hmem, hne, rfl, hpub, hsim⟩

/-! ### Claim C8 -/

unseal Rat.mul Rat.add Rat.inv in
/-- C8, counterexample.  The claim says an entry's `suggestedLinks` never
contains the source row's own published URL.  But the code excludes only
the identical row object (`row !== currentRow`, i.e. the same list
position): with two duplicate rows sharing the published URL `"u"`, each
entry's suggestion list is `["u"]` — its own URL. -/
theorem C8_counterexample :
    (identifyInternalLinkOpportunities
        [⟨"t", "k", "p", "u"⟩, ⟨"t", "k", "p", "u"⟩]).map
      (fun e => (e.url, e.suggestedLinks)) = [("u", ["u"]), ("u", ["u"])] ∧
    ∃ e ∈ identifyInternalLinkOpportunities [⟨"t", "k", "p", "u"⟩, ⟨"t", "k", "p", "u"⟩],
      e.url ∈ e.suggestedLinks := by
  constructor <;> decide

/-- C8, amended.  Every entry of `identifyInternalLinkOpportunities` has at
most 3 suggested links; the link list is a subsequence of the row URLs in
original row order (no re-sorting by score); every link comes from a row at
a different original index with a non-empty published URL scoring `> 0.2`
against the entry's source row; and — provided no two distinct rows carry
the same non-empty published URL — the list never contains the source
row's own URL. -/
theorem C8_amended_suggestedLinks_properties (rows : List EnhancedExcelRow) (k : ℕ)
    (hk : k < (identifyInternalLinkOpportunities rows).length) :
    ((identifyInternalLinkOpportunities rows).get ⟨k, hk⟩).suggestedLinks.length ≤ 3 ∧
    ((identifyInternalLinkOpportunities rows).get ⟨k, hk⟩).suggestedLinks.Sublist
      (rows.map fun row => row.published_url) ∧
    ∃ i, ∃ hi : i < rows.length,
      (rows.get ⟨i, hi⟩).published_url ≠ "" ∧
      ((identifyInternalLinkOpportunities rows).get ⟨k, hk⟩).url =
        (rows.get ⟨i, hi⟩).published_url ∧
      (∀ u ∈ ((identifyInternalLinkOpportunities rows).get ⟨k, hk⟩).suggestedLinks,
        ∃ j, ∃ hj : j < rows.length, j ≠ i ∧ (rows.get ⟨j, hj⟩).published_url = u ∧ u ≠ "" ∧
          (2 : ℚ)/10 < calculateSimilarity (rowPost (rows.get ⟨i, hi⟩))
            (rowPost (rows.get ⟨j, hj⟩))) ∧
      ((∀ i2, (hi2 : i2 < rows.length) → ∀ j, (hj : j < rows.length) → i2 ≠ j →
          (rows.get ⟨i2, hi2⟩).published_url ≠ "" → (rows.get ⟨j, hj⟩).published_url ≠ "" →
          (rows.get ⟨i2, hi2⟩).published_url ≠ (rows.get ⟨j, hj⟩).published_url) →
        ((identifyInternalLinkOpportunities rows).get ⟨k, hk⟩).url ∉
          ((identifyInternalLinkOpportunities rows).get ⟨k, hk⟩).suggestedLinks) := by
  obtain ⟨jr, hmemA, hpub, heq⟩ := identifyInternalLinkOpportunities_get_spec rows k hk
  obtain ⟨ki, hki, hjr1, hjr2⟩ := mem_indexedFrom hmemA
  rw [Nat.zero_add] at hjr1
  refine ⟨?_, ?_, ki, hki, ?_, ?_, ?_, ?_⟩
  · rw [heq]
    exact findRelatedPublishedPosts_length_le _ _ _
  · rw [heq]
    exact findRelatedPublishedPosts_sublist rows jr.1 jr.2
  · rw [← hjr2]
    exact hpub
  · rw [heq, hjr2]
  · rw [heq]
    dsimp only
    intro u hu
    obtain ⟨jq, hjqA, hjqne, hjqurl, hune, hsimq⟩ := findRelatedPublishedPosts_mem hu
    obtain ⟨kq, hkq, hjq1, hjq2⟩ := mem_indexedFrom hjqA
    rw [Nat.zero_add] at hjq1
    refine ⟨kq, hkq, by omega, by rw [← hjq2]; exact hjqurl, hune, ?_⟩
    rw [← hjr2, ← hjq2]
    exact hsimq
  · intro hdist
    rw [heq]
    dsimp only
    intro hmem
    obtain ⟨jq, hjqA, hjqne, hjqurl, hjqne2, hsimq⟩ := findRelatedPublishedPosts_mem hmem
    obtain ⟨kq, hkq, hjq1, hjq2⟩ := mem_indexedFrom hjqA
    rw [Nat.zero_add] at hjq1
    have hne : ki ≠ kq := by omega
    refine hdist ki hki kq hkq hne (by rw [← hjr2]; exact hpub)
      (by rw [← hjq2, hjqurl]; exact hpub) ?_
    rw [← hjr2, ← hjq2, hjqurl]

unseal Rat.mul Rat.add Rat.inv in
/-- Witness for C8's amended claim on two distinct published rows that
score `0.8` against each other: the first entry suggests only the other
row's URL, within the length bound, and never its own URL. -/
theorem C8_amended_suggestedLinks_properties_witness :
    ((identifyInternalLinkOpportunities
        [⟨"ta", "k", "p", "u1"⟩, ⟨"tb", "k", "p", "u2"⟩]).get ⟨0, by decide⟩).suggestedLinks.length
      ≤ 3 ∧
    ((identifyInternalLinkOpportunities
        [⟨"ta", "k", "p", "u1"⟩, ⟨"tb", "k", "p", "u2"⟩]).get ⟨0, by decide⟩).url ∉
      ((identifyInternalLinkOpportunities
        [⟨"ta", "k", "p", "u1"⟩, ⟨"tb", "k", "p", "u2"⟩]).get ⟨0, by decide⟩).suggestedLinks := by
  obtain ⟨h1, h2, i, hi, h3, h4, h5, h6⟩ := C8_amended_suggestedLinks_properties
    [⟨"ta", "k", "p", "u1"⟩, ⟨"tb", "k", "p", "u2"⟩] 0 (by decide)
  exact ⟨h1, h6 (by decide)⟩

end SEOPrompter
